import Mathlib

/-!
# Habit-Tracker server (`src/server.js`)

A shallow embedding of the Express routes of `src/server.js` as pure functions
on an explicit state: the two MongoDB collections the claims are about
(`User`, `Habit`) and the session of the request.

Modelling decisions, each taken from the source:

* a handler is a function from the store, the session and the parsed request
  to the new store, the new session and the response; `await` is sequencing;
* `try { ... } catch` is `Except`: a thrown error is `Except.error`, and the
  `catch` block turns it into the route's status-500 response. What was
  written to the store before the throw stays written;
* a body field is `Option`: `none` is a field that is absent (`undefined`),
  so `!x` on a string field is `x = none` or `x = some ""`;
* the schemas of lines 38-95 are the casts (`trim`, `lowercase`, `default`)
  and validators (`required`, `minlength`, `match`) of Mongoose: the casts run
  when a document is built and, as setters run on queries, on the filter of
  `findOne`; the validators run on `save` and `insertMany`;
* `String.prototype.toLowerCase`, `bcrypt.hash` and `bcrypt.compare` are
  library functions; they are fields of `Platform`, and every theorem with a
  `Platform` argument holds for every platform;
* an `ObjectId` is a natural number; the id drawn for a new user and the
  salt drawn by `bcrypt.hash` are inputs of `signup`;
* a habit id is a JS Number. An id in a body and the integer `parseInt` reads
  off `req.params.id` are given as integer numerals (`none` for `NaN`), and
  `toNumber` turns a numeral into the Number it denotes, so two numerals
  that denote the same double are the same id; a Number with a fractional
  part and an id the schema would have to cast from a string are left out;
* the password of a signin is any JSON value, as `bcrypt.compare` rejects
  what is not a string; the other body fields of signup and signin are
  strings;
* `createdAt` and the `_id` of a habit are never read by a route and are
  left out; the database itself is assumed reachable.
-/

namespace HabitTracker

/-! ## JavaScript strings -/

/-- White space as `String.prototype.trim` and the regex class `\s` see it. -/
def isJsSpace (c : Char) : Bool :=
  let n := c.toNat
  (9 ≤ n && n ≤ 13) || n == 32 || n == 160 || n == 5760 ||
  (8192 ≤ n && n ≤ 8202) || n == 8232 || n == 8233 || n == 8239 ||
  n == 8287 || n == 12288 || n == 65279

/-- Characters of a string after `trim()`. -/
def trimChars (cs : List Char) : List Char :=
  ((cs.dropWhile isJsSpace).reverse.dropWhile isJsSpace).reverse

/-- The method `String.prototype.trim`. -/
def jsTrim (s : String) : String := String.mk (trimChars s.data)

/-- The property `String.prototype.length`: the number of UTF-16 code units. -/
def jsLength (s : String) : Nat :=
  (s.data.map (fun c => if 65536 ≤ c.toNat then 2 else 1)).sum

/-- Truthiness of a string-valued body field: present and not empty. -/
def truthy : Option String → Bool
  | some s => s != ""
  | none => false

/-- Search, upwards from `k`, for the first shift that brings `a` below 2^53. -/
def shiftTo53 (a : Nat) : Nat → Nat → Nat
  | 0, k => k
  | fuel + 1, k => if a >>> k < 1 <<< 53 then k else shiftTo53 a fuel (k + 1)

/-- The Number (IEEE-754 double) that the integer numeral `n` denotes, as
`JSON.parse` and `parseInt` return it, written as the integer it holds: `n`
itself below 2^53 in magnitude, beyond that `n` rounded to 53 significant
bits, ties to even; 2^1024 and its negative stand for the two infinities.
Here `a >>> k` is `a / 2^k` and `1 <<< k` is `2^k`. -/
def toNumber (n : Int) : Int :=
  let a := n.natAbs
  if a < 1 <<< 53 then n
  else if 1 <<< 1024 ≤ a then n.sign * ((1 <<< 1024 : Nat) : Int)
  else
    let k := shiftTo53 a 971 1
    let q := a >>> k
    let r := a % (1 <<< k)
    let up := decide (1 <<< (k - 1) < r) || (r == 1 <<< (k - 1) && q % 2 == 1)
    n.sign * (((if up then q + 1 else q) <<< k : Nat) : Int)

/-- A value of a JSON body field that a route does not cast through a schema:
a string, an integer numeral, a boolean, or an array or object (`obj`). An
absent field or `null` is `none` at the field. -/
inductive JsValue where
  | str (s : String)
  | num (n : Int)
  | bool (b : Bool)
  | obj
  deriving DecidableEq, Repr

/-- Truthiness of a body field, the test of `!x`. -/
def JsValue.truthy : Option JsValue → Bool
  | some (.str s) => s != ""
  | some (.num n) => n != 0
  | some (.bool b) => b
  | some .obj => true
  | none => false

/-- Library functions the server calls. -/
structure Platform where
  /-- The method `String.prototype.toLowerCase`, the `lowercase: true` setter. -/
  toLowerCase : String → String
  /-- The call `bcrypt.hash(password, 10)`, with the salt it draws made explicit. -/
  bcryptHash : String → String → String
  /-- The call `bcrypt.compare(password, hash)`. -/
  bcryptCompare : String → String → Bool

/-! ## Data model (lines 38-97) -/

abbrev ObjectId := Nat

/-- The `completions` object of a habit: date key to mark. -/
abbrev Completions := List (String × Bool)

/-- A document of the `User` collection. -/
structure User where
  _id : ObjectId
  username : String
  email : String
  password : String
  deriving DecidableEq, Repr

/-- A document of the `Habit` collection; `habitId` is a Number, written as the
integer it holds (see `toNumber`). -/
structure Habit where
  userId : ObjectId
  habitId : Int
  name : String
  color : String
  completions : Completions
  deriving DecidableEq, Repr

/-- The database: both collections in insertion order. -/
structure Store where
  users : List User
  habits : List Habit
  deriving DecidableEq, Repr

/-- The fields the routes keep in `req.session`. -/
structure Session where
  userId : Option ObjectId
  username : Option String
  email : Option String
  deriving DecidableEq, Repr

/-- An element of the JSON array returned by `GET /api/habits`. -/
structure HabitView where
  id : Int
  name : String
  color : String
  completions : Completions
  deriving DecidableEq, Repr

/-- The `user` object of the signup and signin responses. -/
structure UserView where
  id : ObjectId
  username : String
  email : String
  deriving DecidableEq, Repr

/-- The JSON bodies the routes send. -/
inductive Body where
  | message (success : Bool) (message : String)
  | user (success : Bool) (message : String) (user : UserView)
  | habits (success : Bool) (habits : List HabitView)
  | habit (success : Bool) (habit : Habit)
  deriving DecidableEq, Repr

/-- Status code and JSON body. -/
structure Response where
  status : Nat
  body : Body
  deriving DecidableEq, Repr

/-- What a route leaves behind. -/
structure Outcome where
  store : Store
  session : Session
  response : Response
  deriving DecidableEq, Repr

/-- The reply `res.status(code).json({ success: false, message })`. -/
def fail (st : Store) (sess : Session) (code : Nat) (msg : String) : Outcome :=
  ⟨st, sess, ⟨code, .message false msg⟩⟩

/-! ## Schemas -/

/-- The `match` regex of `email`: `/^[^\s@]+@[^\s@]+\.[^\s@]+$/`. -/
def emailMatch (s : String) : Bool :=
  let plain := fun c : Char => !isJsSpace c && c != '@'
  let loc := s.data.takeWhile (fun c => c != '@')
  match s.data.dropWhile (fun c => c != '@') with
  | [] => false
  | _ :: dom =>
    !loc.isEmpty && loc.all plain && dom.all plain && dom.tail.dropLast.contains '.'

/-- The `email` path casts with `trim` and `lowercase`. -/
def castEmail (P : Platform) (email : String) : String :=
  P.toLowerCase (jsTrim email)

/-- Validators of `userSchema`, run by `save` on the cast document. -/
def validUser (u : User) : Bool :=
  u.username != "" && 3 ≤ jsLength u.username &&
  u.email != "" && emailMatch u.email &&
  u.password != "" && 6 ≤ jsLength u.password

/-- Validators of `habitSchema`: `name` is required. -/
def validHabit (h : Habit) : Bool := h.name != ""

/-- The query `User.findOne({ email })`: the filter is cast by the schema. -/
def findUserByEmail (P : Platform) (st : Store) (email : String) : Option User :=
  st.users.find? (fun u => u.email == castEmail P email)

/-- The call `newUser.save()`: validation, then the unique indexes on `_id` and
`email`. -/
def saveUser (st : Store) (u : User) : Except String Store :=
  if !validUser u then .error "ValidationError"
  else if st.users.any (fun v => v._id == u._id || v.email == u.email) then
    .error "E11000 duplicate key"
  else .ok { st with users := st.users ++ [u] }

/-- The object literal handed to the `Habit` model, before casting; `habitId`
is the numeral of the request. -/
structure HabitFields where
  userId : ObjectId
  habitId : Option Int
  name : Option String
  color : Option String
  completions : Completions
  deriving DecidableEq, Repr

/-- Casting and validation of one habit document by `habitSchema`: `habitId`
and `name` are required, `habitId` is a Number, `name` is trimmed and must
not be empty, a missing `color` takes the default. `none` is a validation
error. -/
def castHabit (d : HabitFields) : Option Habit :=
  match d.habitId, d.name with
  | some i, some n =>
    let h : Habit :=
      ⟨d.userId, toNumber i, jsTrim n, d.color.getD "#3b82f6", d.completions⟩
    if validHabit h then some h else none
  | _, _ => none

/-- Casting of a list of documents; one invalid document fails the list. -/
def castAll : List HabitFields → Option (List Habit)
  | [] => some []
  | d :: ds =>
    match castHabit d, castAll ds with
    | some h, some hs => some (h :: hs)
    | _, _ => none

/-- The call `Habit.insertMany(docs)`: every document is validated before any is
written. -/
def insertMany (st : Store) (docs : List HabitFields) : Except String Store :=
  match castAll docs with
  | some hs => .ok { st with habits := st.habits ++ hs }
  | none => .error "ValidationError"

/-- The query `Habit.find({ userId })`. -/
def findHabits (st : Store) (u : ObjectId) : List Habit :=
  st.habits.filter (fun h => h.userId == u)

/-- The call `Habit.deleteMany({ userId })`. -/
def deleteMany (st : Store) (u : ObjectId) : Store :=
  { st with habits := st.habits.filter (fun h => !(h.userId == u)) }

/-- The query filter `{ userId, habitId }`. -/
def sameHabit (u : ObjectId) (habitId : Int) (h : Habit) : Bool :=
  h.userId == u && h.habitId == habitId

/-- The query `Habit.findOne({ userId, habitId })`. -/
def findOneHabit (st : Store) (u : ObjectId) (habitId : Int) : Option Habit :=
  st.habits.find? (sameHabit u habitId)

/-- Writes `new` over the first element that satisfies `p`. -/
def replaceFirst (p : Habit → Bool) (new : Habit) : List Habit → List Habit
  | [] => []
  | h :: hs => if p h then new :: hs else h :: replaceFirst p new hs

/-! ## Authentication routes (lines 117-255) -/

/-- The middleware `isAuthenticated`: `next` runs only under a session with a
`userId`, which it receives. -/
def isAuthenticated (st : Store) (sess : Session) (next : ObjectId → Outcome) : Outcome :=
  match sess.userId with
  | some u => next u
  | none => fail st sess 401 "Please login first"

/-- Body of `POST /api/signup`. -/
structure SignupBody where
  username : Option String
  email : Option String
  password : Option String
  deriving DecidableEq, Repr

/-- The six habits of a new user (lines 169-176). -/
def defaultHabits (u : ObjectId) : List HabitFields :=
  [ ⟨u, some 1, some "Read", some "#3b82f6", []⟩,
    ⟨u, some 2, some "Workout", some "#0ea5e9", []⟩,
    ⟨u, some 3, some "Meditate", some "#06b6d4", []⟩,
    ⟨u, some 4, some "Journal", some "#2563eb", []⟩,
    ⟨u, some 5, some "Drink water", some "#1d4ed8", []⟩,
    ⟨u, some 6, some "Drawing", some "#0284c7", []⟩ ]

/-- Route `POST /api/signup`. `newId` is the `_id` of `new User(...)`, `salt` the
salt of `bcrypt.hash`. -/
def signup (P : Platform) (newId : ObjectId) (salt : String)
    (st : Store) (sess : Session) (body : SignupBody) : Outcome :=
  if !truthy body.username || !truthy body.email || !truthy body.password then
    fail st sess 400 "All fields are required"
  else
    let username := body.username.getD ""
    let email := body.email.getD ""
    let password := body.password.getD ""
    if jsLength password < 6 then
      fail st sess 400 "Password must be at least 6 characters"
    else
      match findUserByEmail P st email with
      | some _ => fail st sess 400 "Email already registered"
      | none =>
        let hashedPassword := P.bcryptHash salt password
        let newUser : User := ⟨newId, jsTrim username, castEmail P email, hashedPassword⟩
        match saveUser st newUser with
        | .error _ => fail st sess 500 "Server error during signup"
        | .ok st1 =>
          match insertMany st1 (defaultHabits newUser._id) with
          | .error _ => fail st1 sess 500 "Server error during signup"
          | .ok st2 =>
            ⟨st2, ⟨some newUser._id, some newUser.username, some newUser.email⟩,
              ⟨200, .user true "Account created successfully"
                ⟨newUser._id, newUser.username, newUser.email⟩⟩⟩

/-- Body of `POST /api/signin`. -/
structure SigninBody where
  email : Option String
  password : Option JsValue
  deriving DecidableEq, Repr

/-- Route `POST /api/signin`. `bcrypt.compare` is reached only when a user
was found; it rejects a password that is not a string, and the `catch` of
lines 248-253 answers 500. -/
def signin (P : Platform) (st : Store) (sess : Session) (body : SigninBody) : Outcome :=
  if !truthy body.email || !JsValue.truthy body.password then
    fail st sess 400 "Email and password are required"
  else
    let email := body.email.getD ""
    match findUserByEmail P st email with
    | none => fail st sess 401 "Invalid email or password"
    | some user =>
      match body.password with
      | some (.str password) =>
        if !P.bcryptCompare password user.password then
          fail st sess 401 "Invalid email or password"
        else
          ⟨st, ⟨some user._id, some user.username, some user.email⟩,
            ⟨200, .user true "Login successful" ⟨user._id, user.username, user.email⟩⟩⟩
      | _ => fail st sess 500 "Server error during signin"

/-! ## Habit routes (lines 287-393) -/

/-- An element of the `habits` array of `POST /api/habits/save`. `userId` is
what a client may put there; no route reads it. `id` is an integer numeral. -/
structure HabitInput where
  userId : Option ObjectId
  id : Option Int
  name : Option String
  color : Option String
  completions : Option Completions
  deriving DecidableEq, Repr

/-- Body of `POST /api/habits/save`; `none` is a body without `habits`. -/
structure SaveBody where
  userId : Option ObjectId
  habits : Option (List HabitInput)
  deriving DecidableEq, Repr

/-- Body of `POST /api/habits`. -/
structure CreateBody where
  userId : Option ObjectId
  id : Option Int
  name : Option String
  color : Option String
  deriving DecidableEq, Repr

/-- Body of `PUT /api/habits/:id`. -/
structure UpdateBody where
  userId : Option ObjectId
  name : Option String
  color : Option String
  completions : Option Completions
  deriving DecidableEq, Repr

/-- The `formattedHabits` of lines 292-297. -/
def formatHabit (h : Habit) : HabitView := ⟨h.habitId, h.name, h.color, h.completions⟩

/-- Handler of `GET /api/habits`. -/
def listHabits (st : Store) (sess : Session) (u : ObjectId) : Outcome :=
  ⟨st, sess, ⟨200, .habits true ((findHabits st u).map formatHabit)⟩⟩

/-- The `habitsToSave` of lines 315-321. -/
def habitsToSave (u : ObjectId) (habits : List HabitInput) : List HabitFields :=
  habits.map (fun h => ⟨u, h.id, h.name, h.color, h.completions.getD []⟩)

/-- Handler of `POST /api/habits/save`. Without a `habits` array `habits.map`
throws after the delete. -/
def saveHabits (st : Store) (sess : Session) (u : ObjectId) (body : SaveBody) : Outcome :=
  let st1 := deleteMany st u
  match body.habits with
  | none => fail st1 sess 500 "Error saving habits"
  | some habits =>
    match insertMany st1 (habitsToSave u habits) with
    | .error _ => fail st1 sess 500 "Error saving habits"
    | .ok st2 => ⟨st2, sess, ⟨200, .message true "Habits saved successfully"⟩⟩

/-- Handler of `POST /api/habits`. -/
def createHabit (st : Store) (sess : Session) (u : ObjectId) (body : CreateBody) : Outcome :=
  let color := if truthy body.color then body.color else some "#3b82f6"
  match castHabit ⟨u, body.id, body.name, color, []⟩ with
  | none => fail st sess 500 "Error creating habit"
  | some newHabit =>
    ⟨{ st with habits := st.habits ++ [newHabit] }, sess, ⟨200, .habit true newHabit⟩⟩

/-- Lines 370-372: a field of the body that is truthy is assigned to the
document (`name` through its `trim` setter); any other field stays. -/
def applyUpdate (habit : Habit) (body : UpdateBody) : Habit :=
  { habit with
    name := if truthy body.name then jsTrim (body.name.getD "") else habit.name,
    color := if truthy body.color then body.color.getD "" else habit.color,
    completions := match body.completions with
      | some c => c
      | none => habit.completions }

/-- The write of `habit.save()` on the document `findOne` found: `new` takes
the place of the first habit of `u` with Number `n`. -/
def saveHabit (st : Store) (u : ObjectId) (n : Int) (new : Habit) : Store :=
  { st with habits := replaceFirst (sameHabit u n) new st.habits }

/-- Handler of `PUT /api/habits/:id`; `id` is the integer that
`parseInt(req.params.id)` reads, `none` when it reads none (`NaN`, on which
the filter of `findOne` fails to cast). -/
def updateHabit (st : Store) (sess : Session) (u : ObjectId) (id : Option Int)
    (body : UpdateBody) : Outcome :=
  match id with
  | none => fail st sess 500 "Error updating habit"
  | some habitId =>
    match findOneHabit st u (toNumber habitId) with
    | none => fail st sess 404 "Habit not found"
    | some habit =>
      if !validHabit (applyUpdate habit body) then fail st sess 500 "Error updating habit"
      else
        ⟨saveHabit st u (toNumber habitId) (applyUpdate habit body),
          sess, ⟨200, .habit true (applyUpdate habit body)⟩⟩

/-- Handler of `DELETE /api/habits/:id`; `id` as in `updateHabit`. -/
def deleteHabit (st : Store) (sess : Session) (u : ObjectId) (id : Option Int) : Outcome :=
  match id with
  | none => fail st sess 500 "Error deleting habit"
  | some habitId =>
    ⟨{ st with habits := st.habits.eraseP (sameHabit u (toNumber habitId)) },
      sess, ⟨200, .message true "Habit deleted"⟩⟩

/-- A request to one of the five habit routes. -/
inductive HabitRequest where
  | list
  | save (body : SaveBody)
  | create (body : CreateBody)
  | update (id : Option Int) (body : UpdateBody)
  | delete (id : Option Int)
  deriving DecidableEq, Repr

/-- The handler registered behind `isAuthenticated` for each habit route. -/
def habitHandler (st : Store) (sess : Session) (u : ObjectId) : HabitRequest → Outcome
  | .list => listHabits st sess u
  | .save body => saveHabits st sess u body
  | .create body => createHabit st sess u body
  | .update id body => updateHabit st sess u id body
  | .delete id => deleteHabit st sess u id

/-- A habit route: `isAuthenticated`, then the handler. -/
def habitRoute (st : Store) (sess : Session) (req : HabitRequest) : Outcome :=
  isAuthenticated st sess (fun u => habitHandler st sess u req)

/-- The request with every client-supplied `userId` removed. -/
def stripUserId : HabitRequest → HabitRequest
  | .list => .list
  | .save body =>
    .save ⟨none, body.habits.map (fun hs => hs.map (fun h => { h with userId := none }))⟩
  | .create body => .create { body with userId := none }
  | .update id body => .update id { body with userId := none }
  | .delete id => .delete id

/-! ## Definitions used in the statements -/

/-- The six default habits as they are stored for user `u`. -/
def storedDefaults (u : ObjectId) : List Habit :=
  [ ⟨u, 1, "Read", "#3b82f6", []⟩, ⟨u, 2, "Workout", "#0ea5e9", []⟩,
    ⟨u, 3, "Meditate", "#06b6d4", []⟩, ⟨u, 4, "Journal", "#2563eb", []⟩,
    ⟨u, 5, "Drink water", "#1d4ed8", []⟩, ⟨u, 6, "Drawing", "#0284c7", []⟩ ]

/-- The document `new User({ username, email, password: hashedPassword })`. -/
def newUserDoc (P : Platform) (newId : ObjectId) (salt : String) (body : SignupBody) : User :=
  ⟨newId, jsTrim (body.username.getD ""), castEmail P (body.email.getD ""),
    P.bcryptHash salt (body.password.getD "")⟩

/-- The habit stored for one element of a saved list that passes validation. -/
def storedOf (u : ObjectId) (h : HabitInput) : Habit :=
  ⟨u, toNumber (h.id.getD 0), jsTrim (h.name.getD ""), h.color.getD "#3b82f6", h.completions.getD []⟩

/-- An element of a saved list passes validation: it has an id, and a name
that is not empty once trimmed. -/
def savable (h : HabitInput) : Bool :=
  h.id.isSome && (match h.name with
    | some n => jsTrim n != ""
    | none => false)

/-- A stored habit read as (habitId, name, color, completions). -/
def storedFields (h : Habit) : Option Int × Option String × Option String × Completions :=
  (some h.habitId, some h.name, some h.color, h.completions)

/-- A submitted habit, a missing completions replaced by the empty map. -/
def submittedFields (h : HabitInput) :
    Option Int × Option String × Option String × Completions :=
  (h.id, h.name, h.color, h.completions.getD [])

/-- Every habit is owned by a stored user. -/
def RefOk (st : Store) : Prop :=
  ∀ h ∈ st.habits, ∃ u ∈ st.users, u._id = h.userId

/-- The session, when it names a user, names a stored one. -/
def SessOk (st : Store) (sess : Session) : Prop :=
  ∀ u, sess.userId = some u → ∃ x ∈ st.users, x._id = u

/-- ASCII lower-casing, and a transparent stand-in for bcrypt whose `compare`
accepts exactly what its `hash` produced. -/
def asciiPlatform : Platform where
  toLowerCase := fun s => String.mk (s.data.map Char.toLower)
  bcryptHash := fun _ pw => "$2a$10$" ++ pw
  bcryptCompare := fun pw hashed => hashed == "$2a$10$" ++ pw

/-- A store with two users and one habit of each. -/
def demoStore : Store :=
  ⟨[⟨1, "abc", "a@b.com", "$2a$10$secret1"⟩, ⟨2, "bob", "bob@x.org", "$2a$10$hunter22"⟩],
    [⟨1, 1, "Read", "#3b82f6", []⟩, ⟨2, 1, "Swim", "#000000", [("2024-01-01", true)]⟩]⟩

/-- A session of user 1 of `demoStore`. -/
def demoSession : Session := ⟨some 1, some "abc", some "a@b.com"⟩

/-- A session nobody signed in to. -/
def anonymous : Session := ⟨none, none, none⟩

/-! ## Lemmas on the store operations -/

theorem castHabit_userId {d : HabitFields} {h : Habit} (hc : castHabit d = some h) :
    h.userId = d.userId := by
  unfold castHabit at hc
  split at hc
  · dsimp only at hc
    split at hc
    · cases hc; rfl
    · cases hc
  · cases hc

theorem castAll_userId {u : ObjectId} :
    ∀ {docs : List HabitFields} {hs : List Habit}, castAll docs = some hs →
      (∀ d ∈ docs, d.userId = u) → ∀ h ∈ hs, h.userId = u
  | [], hs, hc, _ => by
    simp [castAll] at hc
    subst hc
    simp
  | d :: ds, hs, hc, hd => by
    unfold castAll at hc
    split at hc
    · rename_i h0 hs0 h1 h2
      cases hc
      intro h hm
      rcases List.mem_cons.1 hm with rfl | hm
      · rw [castHabit_userId h1]
        exact hd d (List.mem_cons_self _ _)
      · exact castAll_userId h2 (fun d0 hd0 => hd d0 (List.mem_cons_of_mem _ hd0)) h hm
    · cases hc

theorem habitsToSave_userId (u : ObjectId) (habits : List HabitInput) :
    ∀ d ∈ habitsToSave u habits, d.userId = u := by
  intro d hd
  simp only [habitsToSave, List.mem_map] at hd
  obtain ⟨h, _, rfl⟩ := hd
  rfl

theorem filter_owner_append {v u : ObjectId} (hvu : v ≠ u) (l hs : List Habit)
    (hhs : ∀ h ∈ hs, h.userId = u) :
    (l ++ hs).filter (fun h => h.userId == v) = l.filter (fun h => h.userId == v) := by
  rw [List.filter_append]
  have : hs.filter (fun h => h.userId == v) = [] := by
    rw [List.filter_eq_nil_iff]
    intro h hm
    have := hhs h hm
    simp [this, Ne.symm hvu]
  rw [this, List.append_nil]

theorem filter_owner_deleteMany {v u : ObjectId} (hvu : v ≠ u) (l : List Habit) :
    (l.filter (fun h => !(h.userId == u))).filter (fun h => h.userId == v)
      = l.filter (fun h => h.userId == v) := by
  rw [List.filter_filter]
  congr 1
  funext h
  by_cases hv : h.userId = v
  · simp [hv, hvu]
  · simp [hv]

theorem filter_owner_replaceFirst {v u : ObjectId} (hvu : v ≠ u) (p : Habit → Bool)
    (new : Habit) (hp : ∀ h, p h = true → h.userId = u) (hn : new.userId = u) :
    ∀ l : List Habit, (replaceFirst p new l).filter (fun h => h.userId == v)
      = l.filter (fun h => h.userId == v)
  | [] => rfl
  | h :: hs => by
    unfold replaceFirst
    by_cases hph : p h = true
    · have h1 := hp h hph
      simp [hph, List.filter_cons, h1, hn, Ne.symm hvu]
    · simp only [hph, Bool.false_eq_true, if_false, List.filter_cons]
      rw [filter_owner_replaceFirst hvu p new hp hn hs]

theorem filter_owner_eraseP {v u : ObjectId} (hvu : v ≠ u) (p : Habit → Bool)
    (hp : ∀ h, p h = true → h.userId = u) :
    ∀ l : List Habit, (l.eraseP p).filter (fun h => h.userId == v)
      = l.filter (fun h => h.userId == v)
  | [] => rfl
  | h :: hs => by
    by_cases hph : p h = true
    · have h1 := hp h hph
      simp [List.eraseP_cons, hph, List.filter_cons, h1, Ne.symm hvu]
    · simp only [List.eraseP_cons, hph, Bool.false_eq_true, cond_false, List.filter_cons]
      rw [filter_owner_eraseP hvu p hp hs]

theorem match_owner (u : ObjectId) (i : Int) (h : Habit)
    (hp : sameHabit u i h = true) : h.userId = u := by
  simp [sameHabit] at hp
  exact hp.1

theorem findOneHabit_match {st : Store} {u : ObjectId} {i : Int} {h : Habit}
    (hf : findOneHabit st u i = some h) :
    sameHabit u i h = true := by
  unfold findOneHabit at hf
  exact List.find?_some hf

theorem habitHandler_frame (st : Store) (sess : Session) (u v : ObjectId) (hvu : v ≠ u)
    (req : HabitRequest) :
    findHabits (habitHandler st sess u req).store v = findHabits st v := by
  cases req with
  | list => rfl
  | save body =>
    simp only [habitHandler, saveHabits]
    cases hb : body.habits with
    | none => exact filter_owner_deleteMany hvu st.habits
    | some habits =>
      simp only []
      cases hc : castAll (habitsToSave u habits) with
      | none =>
        simp only [insertMany, hc]
        exact filter_owner_deleteMany hvu st.habits
      | some hs =>
        simp only [insertMany, hc, findHabits, deleteMany]
        rw [filter_owner_append hvu _ hs
          (castAll_userId hc (habitsToSave_userId u habits))]
        exact filter_owner_deleteMany hvu st.habits
  | create body =>
    simp only [habitHandler, createHabit]
    split
    · rfl
    · rename_i newHabit hc
      have hu := castHabit_userId hc
      simp only [findHabits]
      exact filter_owner_append hvu _ [newHabit] (by simpa using hu)
  | update id body =>
    simp only [habitHandler, updateHabit]
    cases id with
    | none => rfl
    | some habitId =>
      simp only []
      cases hf : findOneHabit st u (toNumber habitId) with
      | none => rfl
      | some habit =>
        simp only []
        have hown : habit.userId = u :=
          match_owner u (toNumber habitId) habit (findOneHabit_match hf)
        split
        · rfl
        · simp only [findHabits, saveHabit]
          exact filter_owner_replaceFirst hvu _ (applyUpdate habit body)
            (match_owner u (toNumber habitId)) hown st.habits
  | delete id =>
    simp only [habitHandler, deleteHabit]
    cases id with
    | none => rfl
    | some habitId =>
      exact filter_owner_eraseP hvu _ (match_owner u (toNumber habitId)) st.habits

theorem habitHandler_stripUserId (st : Store) (sess : Session) (u : ObjectId)
    (req : HabitRequest) :
    habitHandler st sess u (stripUserId req) = habitHandler st sess u req := by
  cases req with
  | list => rfl
  | save body =>
    simp only [stripUserId, habitHandler, saveHabits]
    cases body.habits with
    | none => rfl
    | some habits =>
      simp only [Option.map_some', habitsToSave, List.map_map]
      rfl
  | create body => rfl
  | update id body => rfl
  | delete id => rfl

theorem castAll_defaultHabits (u : ObjectId) :
    castAll (defaultHabits u) = some (storedDefaults u) := rfl

/-- What a signup that answers 200 went through and left behind. -/
theorem signup_inversion (P : Platform) (newId : ObjectId) (salt : String) (st : Store)
    (sess : Session) (body : SignupBody)
    (hok : (signup P newId salt st sess body).response.status = 200) :
    truthy body.email = true ∧ truthy body.password = true ∧
    findUserByEmail P st (body.email.getD "") = none ∧
    (∀ v ∈ st.users, v._id ≠ newId) ∧
    signup P newId salt st sess body =
      ⟨⟨st.users ++ [newUserDoc P newId salt body], st.habits ++ storedDefaults newId⟩,
        ⟨some newId, some (newUserDoc P newId salt body).username,
          some (newUserDoc P newId salt body).email⟩,
        ⟨200, .user true "Account created successfully"
          ⟨newId, (newUserDoc P newId salt body).username,
            (newUserDoc P newId salt body).email⟩⟩⟩ := by
  unfold signup at hok ⊢
  split at hok
  · simp [fail] at hok
  · rename_i htr
    simp only [Bool.or_eq_true, Bool.not_eq_true', not_or, Bool.not_eq_false] at htr
    rw [if_neg (by simpa using htr)]
    dsimp only at hok ⊢
    split at hok
    · simp [fail] at hok
    · rename_i hlen
      rw [if_neg hlen]
      cases hf : findUserByEmail P st (body.email.getD "") with
      | some w => rw [hf] at hok; simp [fail] at hok
      | none =>
        rw [hf] at hok
        dsimp only at hok ⊢
        cases hs : saveUser st ⟨newId, jsTrim (body.username.getD ""),
            castEmail P (body.email.getD ""), P.bcryptHash salt (body.password.getD "")⟩ with
        | error e => rw [hs] at hok; simp [fail] at hok
        | ok st1 =>
          unfold saveUser at hs
          split at hs
          · cases hs
          · split at hs
            · cases hs
            · rename_i hany
              cases hs
              refine ⟨htr.1.2, htr.2, rfl, ?_, ?_⟩
              · intro v hv hid
                apply hany
                rw [List.any_eq_true]
                exact ⟨v, hv, by simp [hid]⟩
              · simp only [insertMany, castAll_defaultHabits]
                rfl

theorem castHabit_of_savable (u : ObjectId) (h : HabitInput) (hs : savable h = true) :
    castHabit ⟨u, h.id, h.name, h.color, h.completions.getD []⟩ = some (storedOf u h) := by
  unfold savable at hs
  cases hi : h.id with
  | none => simp [hi] at hs
  | some i =>
    cases hn : h.name with
    | none => simp [hn] at hs
    | some n =>
      simp only [hi, hn, Option.isSome_some, Bool.true_and] at hs
      simp only [castHabit, validHabit, hs, storedOf, hi, hn, Option.getD_some, if_true]

theorem castHabit_of_not_savable (u : ObjectId) (h : HabitInput) (hs : savable h = false) :
    castHabit ⟨u, h.id, h.name, h.color, h.completions.getD []⟩ = none := by
  unfold savable at hs
  cases hi : h.id with
  | none => simp [castHabit]
  | some i =>
    cases hn : h.name with
    | none => simp [castHabit]
    | some n =>
      simp only [hi, hn, Option.isSome_some, Bool.true_and] at hs
      simp only [castHabit, validHabit, hs]
      simp

theorem castAll_habitsToSave (u : ObjectId) :
    ∀ habits : List HabitInput,
      castAll (habitsToSave u habits) =
        if habits.all savable then some (habits.map (storedOf u)) else none
  | [] => rfl
  | h :: hs => by
    have ih := castAll_habitsToSave u hs
    simp only [habitsToSave, List.map_cons] at ih ⊢
    unfold castAll
    rw [ih]
    cases hsv : savable h with
    | true =>
      rw [castHabit_of_savable u h hsv]
      cases hall : hs.all savable <;> simp [hsv, hall]
    | false =>
      rw [castHabit_of_not_savable u h hsv]
      simp [hsv]

theorem storedOf_userId (u : ObjectId) (habits : List HabitInput) :
    ∀ h ∈ habits.map (storedOf u), h.userId = u := by
  intro h hm
  obtain ⟨x, _, rfl⟩ := List.mem_map.1 hm
  rfl

theorem filter_own_of_all {u : ObjectId} (hs : List Habit) (h : ∀ x ∈ hs, x.userId = u) :
    hs.filter (fun x => x.userId == u) = hs := by
  rw [List.filter_eq_self]
  intro x hx
  simp [h x hx]

theorem filter_other_of_all {u : ObjectId} (hs : List Habit) (h : ∀ x ∈ hs, x.userId = u) :
    hs.filter (fun x => !(x.userId == u)) = [] := by
  rw [List.filter_eq_nil_iff]
  intro x hx
  simp [h x hx]

theorem findHabits_deleteMany (st : Store) (u : ObjectId) :
    findHabits (deleteMany st u) u = [] := by
  simp only [findHabits, deleteMany, List.filter_filter]
  rw [List.filter_eq_nil_iff]
  intro x _
  simp

theorem deleteMany_idem (st : Store) (u : ObjectId) :
    deleteMany (deleteMany st u) u = deleteMany st u := by
  simp [deleteMany, List.filter_filter]

/-- The outcome of the save handler, by whether the list passes validation. -/
theorem saveHabits_eq (st : Store) (sess : Session) (u : ObjectId) (w : Option ObjectId)
    (habits : List HabitInput) :
    saveHabits st sess u ⟨w, some habits⟩ =
      if habits.all savable then
        ⟨⟨st.users, (deleteMany st u).habits ++ habits.map (storedOf u)⟩, sess,
          ⟨200, .message true "Habits saved successfully"⟩⟩
      else ⟨deleteMany st u, sess, ⟨500, .message false "Error saving habits"⟩⟩ := by
  simp only [saveHabits, insertMany, castAll_habitsToSave]
  cases habits.all savable <;> simp [fail, deleteMany]

theorem replaceFirst_split (p : Habit → Bool) (new : Habit) :
    ∀ (l : List Habit) (h : Habit), l.find? p = some h →
      ∃ pre post, l = pre ++ h :: post ∧ (∀ x ∈ pre, p x = false) ∧
        replaceFirst p new l = pre ++ new :: post
  | [], h, hf => by simp at hf
  | x :: xs, h, hf => by
    by_cases hpx : p x = true
    · rw [List.find?_cons_of_pos _ hpx] at hf
      cases hf
      exact ⟨[], xs, rfl, by simp, by simp [replaceFirst, hpx]⟩
    · rw [List.find?_cons_of_neg _ hpx] at hf
      obtain ⟨pre, post, h1, h2, h3⟩ := replaceFirst_split p new xs h hf
      refine ⟨x :: pre, post, by simp [h1], ?_, by simp [replaceFirst, hpx, h3]⟩
      intro y hy
      rcases List.mem_cons.1 hy with rfl | hy
      · simpa using hpx
      · exact h2 y hy

theorem find?_split (p : Habit → Bool) (pre post : List Habit) (new : Habit)
    (hpre : ∀ x ∈ pre, p x = false) (hnew : p new = true) :
    (pre ++ new :: post).find? p = some new := by
  induction pre with
  | nil => simp [hnew]
  | cons x xs ih =>
    have hx : ¬ p x = true := by simp [hpre x (List.mem_cons_self _ _)]
    rw [List.cons_append, List.find?_cons_of_neg _ hx]
    exact ih (fun y hy => hpre y (List.mem_cons_of_mem _ hy))

theorem sameHabit_applyUpdate (u : ObjectId) (i : Int) (habit : Habit) (body : UpdateBody) :
    sameHabit u i (applyUpdate habit body) = sameHabit u i habit := rfl

/-! ## Reachable stores -/

theorem habitHandler_users (st : Store) (sess : Session) (u : ObjectId) (req : HabitRequest) :
    (habitHandler st sess u req).store.users = st.users ∧
    (habitHandler st sess u req).session = sess := by
  cases req with
  | list => exact ⟨rfl, rfl⟩
  | save body =>
    simp only [habitHandler, saveHabits]
    cases body.habits with
    | none => exact ⟨rfl, rfl⟩
    | some habits =>
      simp only [insertMany]
      cases castAll (habitsToSave u habits) <;> exact ⟨rfl, rfl⟩
  | create body =>
    simp only [habitHandler, createHabit]
    split <;> exact ⟨rfl, rfl⟩
  | update id body =>
    simp only [habitHandler, updateHabit]
    cases id with
    | none => exact ⟨rfl, rfl⟩
    | some habitId =>
      simp only []
      cases findOneHabit st u (toNumber habitId) with
      | none => exact ⟨rfl, rfl⟩
      | some habit =>
        simp only []
        split <;> exact ⟨rfl, rfl⟩
  | delete id =>
    simp only [habitHandler, deleteHabit]
    cases id <;> exact ⟨rfl, rfl⟩

/-- The habit routes keep every habit owned by a stored user. -/
theorem habitRoute_RefOk (st : Store) (sess : Session) (req : HabitRequest)
    (href : RefOk st) (hsess : SessOk st sess) :
    RefOk (habitRoute st sess req).store ∧
    SessOk (habitRoute st sess req).store (habitRoute st sess req).session := by
  unfold habitRoute isAuthenticated
  cases hu : sess.userId with
  | none => exact ⟨href, hsess⟩
  | some u =>
    simp only []
    obtain ⟨husers, hs⟩ := habitHandler_users st sess u req
    refine ⟨?_, ?_⟩
    · intro h hm
      rw [husers]
      by_cases hown : h.userId = u
      · rw [hown]
        exact hsess u hu
      · have h1 : h ∈ findHabits (habitHandler st sess u req).store h.userId := by
          simp [findHabits, hm]
        rw [habitHandler_frame st sess u h.userId hown req] at h1
        exact href h (List.mem_filter.1 h1).1
    · intro x hx
      rw [hs] at hx
      rw [husers]
      exact hsess x hx

/-- Signup keeps every habit owned by a stored user, and leaves a session of a
stored user. -/
theorem signup_RefOk (P : Platform) (newId : ObjectId) (salt : String) (st : Store)
    (sess : Session) (body : SignupBody) (href : RefOk st) (hsess : SessOk st sess) :
    RefOk (signup P newId salt st sess body).store ∧
    SessOk (signup P newId salt st sess body).store
      (signup P newId salt st sess body).session := by
  have hmono : ∀ st1 : Store, (∃ l, st1.users = st.users ++ l) → st1.habits = st.habits →
      RefOk st1 ∧ SessOk st1 sess := by
    intro st1 ⟨l, hl⟩ hh
    refine ⟨?_, ?_⟩
    · intro h hm
      rw [hh] at hm
      obtain ⟨x, hx, hid⟩ := href h hm
      exact ⟨x, by rw [hl]; exact List.mem_append_left _ hx, hid⟩
    · intro u hu
      obtain ⟨x, hx, hid⟩ := hsess u hu
      exact ⟨x, by rw [hl]; exact List.mem_append_left _ hx, hid⟩
  have hsame := hmono st ⟨[], by simp⟩ rfl
  unfold signup
  split
  · exact hsame
  · dsimp only
    split
    · exact hsame
    · split
      · exact hsame
      · split
        · exact hsame
        · rename_i st1 hs
          have hst1 : st1 = ⟨st.users ++ [⟨newId, jsTrim (body.username.getD ""),
              castEmail P (body.email.getD ""), P.bcryptHash salt (body.password.getD "")⟩],
              st.habits⟩ := by
            unfold saveUser at hs
            split at hs
            · cases hs
            · split at hs
              · cases hs
              · cases hs
                rfl
          split
          · exact hmono st1 ⟨_, by rw [hst1]⟩ (by rw [hst1])
          · rename_i st2 hi
            simp only [insertMany, castAll_defaultHabits] at hi
            cases hi
            subst hst1
            refine ⟨?_, ?_⟩
            · intro h hm
              rcases List.mem_append.1 hm with hm | hm
              · obtain ⟨x, hx, hid⟩ := href h hm
                exact ⟨x, List.mem_append_left _ hx, hid⟩
              · refine ⟨_, List.mem_append_right _ (List.mem_singleton_self _), ?_⟩
                simp only [storedDefaults, List.mem_cons, List.mem_singleton,
                  List.not_mem_nil, or_false] at hm
                rcases hm with rfl | rfl | rfl | rfl | rfl | rfl <;> rfl
            · intro u hu
              cases hu
              exact ⟨_, List.mem_append_right _ (List.mem_singleton_self _), rfl⟩

/-- Signin changes no store and leaves a session of a stored user. -/
theorem signin_RefOk (P : Platform) (st : Store) (sess : Session) (body : SigninBody)
    (hsess : SessOk st sess) :
    (signin P st sess body).store = st ∧
    SessOk (signin P st sess body).store (signin P st sess body).session := by
  unfold signin
  split
  · exact ⟨rfl, hsess⟩
  · dsimp only
    cases hf : findUserByEmail P st (body.email.getD "") with
    | none => exact ⟨rfl, hsess⟩
    | some user =>
      dsimp only
      split
      · split
        · exact ⟨rfl, hsess⟩
        · refine ⟨rfl, ?_⟩
          intro u hu
          cases hu
          exact ⟨user, List.mem_of_find?_eq_some hf, rfl⟩
      · exact ⟨rfl, hsess⟩

/-- Signup answers 200 on an input the code takes for valid: a username of
at least 3 code units once trimmed, an email that is not empty, matches the
regex once cast and is not registered, a password of at least 6 code units
whose hash has at least 6, and an `_id` no stored user has. -/
theorem signup_succeeds (P : Platform) (newId : ObjectId) (salt : String) (st : Store)
    (sess : Session) (username email password : String)
    (hun : 3 ≤ jsLength (jsTrim username)) (hem : email ≠ "")
    (hmatch : emailMatch (castEmail P email) = true) (hpw : 6 ≤ jsLength password)
    (hhash : 6 ≤ jsLength (P.bcryptHash salt password))
    (hnew : findUserByEmail P st email = none) (hid : ∀ v ∈ st.users, v._id ≠ newId) :
    (signup P newId salt st sess ⟨some username, some email, some password⟩).response.status
      = 200 := by
  have hne : ∀ x : String, 1 ≤ jsLength x → x ≠ "" := by
    rintro x hx rfl
    simp [jsLength] at hx
  have hune : username ≠ "" := by
    rintro rfl
    have : jsLength (jsTrim "") = 0 := by decide
    omega
  have hmne : castEmail P email ≠ "" := by
    intro h0
    rw [h0] at hmatch
    exact absurd hmatch (by decide)
  have hvalid : validUser ⟨newId, jsTrim username, castEmail P email,
      P.bcryptHash salt password⟩ = true := by
    simp only [validUser, Bool.and_eq_true, bne_iff_ne, ne_eq, decide_eq_true_eq]
    exact ⟨⟨⟨⟨⟨hne _ (by omega), hun⟩, hmne⟩, hmatch⟩, hne _ (by omega)⟩, hhash⟩
  have hany : st.users.any (fun v => v._id == newId || v.email == castEmail P email)
      = false := by
    rw [List.any_eq_false]
    intro v hv
    unfold findUserByEmail at hnew
    rw [List.find?_eq_none] at hnew
    have h1 := hnew v hv
    have h2 := hid v hv
    simp only [Bool.or_eq_true, beq_iff_eq, not_or]
    exact ⟨h2, by simpa using h1⟩
  unfold signup
  rw [if_neg (by simp [truthy, hune, hem, hne password (by omega)])]
  simp only [Option.getD_some]
  rw [if_neg (by omega), hnew]
  simp only [saveUser, hvalid, hany, insertMany, castAll_defaultHabits, Bool.not_true,
    Bool.false_eq_true, if_false]

/-- With a password that is a non-empty string, a signin whose email finds no
user and one whose email finds a user with a hash `bcrypt.compare` rejects are
answered by the same outcome: 401 `Invalid email or password`, store and
session untouched. -/
theorem signin_string_password_uniform (P : Platform) (st : Store) (sess : Session)
    (email password : String) (he : email ≠ "") (hp : password ≠ "")
    (h : findUserByEmail P st email = none ∨
      ∃ user, findUserByEmail P st email = some user ∧
        P.bcryptCompare password user.password = false) :
    signin P st sess ⟨some email, some (.str password)⟩ =
      ⟨st, sess, ⟨401, .message false "Invalid email or password"⟩⟩ := by
  unfold signin
  rw [if_neg (by simp [truthy, JsValue.truthy, he, hp])]
  simp only [Option.getD_some]
  rcases h with h | ⟨user, h, hc⟩
  · rw [h]; rfl
  · rw [h]
    simp [hc, fail]

/-- With a password that is truthy and not a string, a signin whose email
finds a user is answered 500, and one whose email finds none 401. -/
theorem signin_other_password (P : Platform) (st : Store) (sess : Session)
    (email : String) (password : JsValue) (he : email ≠ "")
    (hp : JsValue.truthy (some password) = true) (hns : ∀ s, password ≠ .str s) :
    signin P st sess ⟨some email, some password⟩ =
      match findUserByEmail P st email with
      | some _ => ⟨st, sess, ⟨500, .message false "Server error during signin"⟩⟩
      | none => ⟨st, sess, ⟨401, .message false "Invalid email or password"⟩⟩ := by
  unfold signin
  rw [if_neg (by simp [truthy, he, hp])]
  simp only [Option.getD_some]
  cases findUserByEmail P st email with
  | none => rfl
  | some user =>
    cases password with
    | str s => exact absurd rfl (hns s)
    | num n => rfl
    | bool b => rfl
    | obj => rfl

/-! ## Claims -/

/-- C1: on each of the five habit routes a request whose session has no
`userId` is answered 401 `Please login first` with store and session as they
were, and that outcome is the same whatever handler sits behind the guard,
which is therefore not run. -/
theorem habitRoute_unauthenticated (st : Store) (sess : Session) (req : HabitRequest)
    (h : sess.userId = none) :
    habitRoute st sess req = ⟨st, sess, ⟨401, .message false "Please login first"⟩⟩ ∧
    ∀ next : ObjectId → Outcome,
      isAuthenticated st sess next = ⟨st, sess, ⟨401, .message false "Please login first"⟩⟩ := by
  constructor
  · simp [habitRoute, isAuthenticated, h, fail]
  · intro next
    simp [isAuthenticated, h, fail]

/-- A delete request without a session, on a store that holds the habit. -/
theorem habitRoute_unauthenticated_witness :
    anonymous.userId = none ∧
    habitRoute demoStore anonymous (.delete (some 1)) =
      ⟨demoStore, anonymous, ⟨401, .message false "Please login first"⟩⟩ :=
  ⟨rfl, (habitRoute_unauthenticated demoStore anonymous (.delete (some 1)) rfl).1⟩

/-- C2: under a session of user `u`, a request to any habit route leaves the
habits of every other user `v` as they were, every habit it adds and every
habit it removes or rewrites is owned by `u`, and the outcome does not depend
on any `userId` the client put into the request. -/
theorem habitRoute_scoped_to_session (st : Store) (sess : Session) (u : ObjectId)
    (req : HabitRequest) (hu : sess.userId = some u) :
    (∀ v, v ≠ u → findHabits (habitRoute st sess req).store v = findHabits st v) ∧
    (∀ h ∈ (habitRoute st sess req).store.habits, h ∉ st.habits → h.userId = u) ∧
    (∀ h ∈ st.habits, h ∉ (habitRoute st sess req).store.habits → h.userId = u) ∧
    habitRoute st sess (stripUserId req) = habitRoute st sess req := by
  have hr : ∀ r, habitRoute st sess r = habitHandler st sess u r := by
    intro r
    simp [habitRoute, isAuthenticated, hu]
  have hframe := habitHandler_frame st sess u
  rw [hr req, hr (stripUserId req)]
  refine ⟨fun v hv => hframe v hv req, ?_, ?_, habitHandler_stripUserId st sess u req⟩
  · intro h hm hn
    by_contra hne
    have h1 : h ∈ findHabits (habitHandler st sess u req).store h.userId := by
      simp [findHabits, hm]
    rw [hframe h.userId hne req] at h1
    exact hn (List.mem_filter.1 h1).1
  · intro h hm hn
    by_contra hne
    have h1 : h ∈ findHabits st h.userId := by
      simp [findHabits, hm]
    rw [← hframe h.userId hne req] at h1
    exact hn (List.mem_filter.1 h1).1

/-- User 1 saves a list that names user 2 as owner: the habits of user 2 stay,
and the outcome is the one of the same list without that `userId`. -/
theorem habitRoute_scoped_to_session_witness :
    demoSession.userId = some 1 ∧
    findHabits (habitRoute demoStore demoSession
        (.save ⟨some 2, some [⟨some 2, some 1, some "Run", none, none⟩]⟩)).store 2 =
      findHabits demoStore 2 ∧
    habitRoute demoStore demoSession
        (.save ⟨none, some [⟨none, some 1, some "Run", none, none⟩]⟩) =
      habitRoute demoStore demoSession
        (.save ⟨some 2, some [⟨some 2, some 1, some "Run", none, none⟩]⟩) :=
  ⟨rfl,
    (habitRoute_scoped_to_session demoStore demoSession 1
      (.save ⟨some 2, some [⟨some 2, some 1, some "Run", none, none⟩]⟩) rfl).1 2 (by decide),
    (habitRoute_scoped_to_session demoStore demoSession 1
      (.save ⟨some 2, some [⟨some 2, some 1, some "Run", none, none⟩]⟩) rfl).2.2.2⟩

/-- C3 (code defect): with the password `123456` sent as a JSON number, a
signin for the registered `a@b.com` is answered 500 `Server error during
signin`, and a signin for an email nobody registered is answered 401 `Invalid
email or password`. The claim wants the two cases answered alike (as they are
for a string password); this pair tells a registered email from an unknown
one. -/
theorem signin_number_password_tells_apart :
    findUserByEmail asciiPlatform demoStore "a@b.com" =
      some ⟨1, "abc", "a@b.com", "$2a$10$secret1"⟩ ∧
    signin asciiPlatform demoStore anonymous ⟨some "a@b.com", some (.num 123456)⟩ =
      ⟨demoStore, anonymous, ⟨500, .message false "Server error during signin"⟩⟩ ∧
    findUserByEmail asciiPlatform demoStore "nobody@x.org" = none ∧
    signin asciiPlatform demoStore anonymous ⟨some "nobody@x.org", some (.num 123456)⟩ =
      ⟨demoStore, anonymous, ⟨401, .message false "Invalid email or password"⟩⟩ ∧
    signin asciiPlatform demoStore anonymous ⟨some "a@b.com", some (.str "123456")⟩ =
      ⟨demoStore, anonymous, ⟨401, .message false "Invalid email or password"⟩⟩ :=
  ⟨by decide, by decide, by decide, by decide, by decide⟩

/-- C4: when the store holds a user whose email is the request's email after
the schema cast (trimmed, lower-cased; stored emails are always in that form),
a signup with a non-empty username and a password of at least 6 code units is
answered 400 `Email already registered`, and users, habits and session stay
as they were. The request email is not empty, as no stored email is. -/
theorem signup_duplicate_email (P : Platform) (newId : ObjectId) (salt : String)
    (st : Store) (sess : Session) (u : User) (username email password : String)
    (hu : u ∈ st.users) (hcast : castEmail P email = u.email)
    (hun : username ≠ "") (hem : email ≠ "") (hpw : 6 ≤ jsLength password) :
    signup P newId salt st sess ⟨some username, some email, some password⟩ =
      ⟨st, sess, ⟨400, .message false "Email already registered"⟩⟩ := by
  have hpne : password ≠ "" := by
    rintro rfl
    simp [jsLength] at hpw
  unfold signup
  rw [if_neg (by simp [truthy, hun, hem, hpne])]
  simp only [Option.getD_some]
  rw [if_neg (by omega)]
  cases hf : findUserByEmail P st email with
  | some w => rfl
  | none =>
    exfalso
    unfold findUserByEmail at hf
    rw [List.find?_eq_none] at hf
    exact hf u hu (by simp [hcast])

/-- A signup whose email differs from a stored one in case and padding only. -/
theorem signup_duplicate_email_witness :
    signup asciiPlatform 3 "salt" demoStore anonymous
        ⟨some "carol", some " A@B.com ", some "secret1"⟩ =
      ⟨demoStore, anonymous, ⟨400, .message false "Email already registered"⟩⟩ :=
  signup_duplicate_email asciiPlatform 3 "salt" demoStore anonymous
    ⟨1, "abc", "a@b.com", "$2a$10$secret1"⟩ "carol" " A@B.com " "secret1"
    (by decide) (by decide) (by decide) (by decide) (by decide)

/-- C5: after a signup that answered 200, in a store where every habit
belongs to a stored user (`RefOk`, which every route keeps), `GET /api/habits`
under the session the signup left returns the six default habits and nothing
else, each with empty completions; a returned habit has the fields id, name,
color, completions. -/
theorem signup_then_list_defaults (P : Platform) (newId : ObjectId) (salt : String)
    (st : Store) (sess : Session) (body : SignupBody)
    (href : RefOk st)
    (hok : (signup P newId salt st sess body).response.status = 200) :
    (habitRoute (signup P newId salt st sess body).store
        (signup P newId salt st sess body).session .list).response =
      ⟨200, .habits true
        [ ⟨1, "Read", "#3b82f6", []⟩, ⟨2, "Workout", "#0ea5e9", []⟩,
          ⟨3, "Meditate", "#06b6d4", []⟩, ⟨4, "Journal", "#2563eb", []⟩,
          ⟨5, "Drink water", "#1d4ed8", []⟩, ⟨6, "Drawing", "#0284c7", []⟩ ]⟩ := by
  obtain ⟨_, _, _, hfresh, heq⟩ := signup_inversion P newId salt st sess body hok
  rw [heq]
  have hold : st.habits.filter (fun h => h.userId == newId) = [] := by
    rw [List.filter_eq_nil_iff]
    intro h hm
    obtain ⟨u, hu, hid⟩ := href h hm
    have := hfresh u hu
    simp [← hid, this]
  simp only [habitRoute, isAuthenticated, habitHandler, listHabits, findHabits,
    List.filter_append, hold, List.nil_append]
  simp [storedDefaults, formatHabit]

/-- A third user signs up on a store of two and lists the habits. -/
theorem signup_then_list_defaults_witness :
    (signup asciiPlatform 3 "salt" demoStore anonymous
        ⟨some "carol", some "Carol@x.org", some "secret1"⟩).response.status = 200 ∧
    (habitRoute
        (signup asciiPlatform 3 "salt" demoStore anonymous
          ⟨some "carol", some "Carol@x.org", some "secret1"⟩).store
        (signup asciiPlatform 3 "salt" demoStore anonymous
          ⟨some "carol", some "Carol@x.org", some "secret1"⟩).session .list).response =
      ⟨200, .habits true
        [ ⟨1, "Read", "#3b82f6", []⟩, ⟨2, "Workout", "#0ea5e9", []⟩,
          ⟨3, "Meditate", "#06b6d4", []⟩, ⟨4, "Journal", "#2563eb", []⟩,
          ⟨5, "Drink water", "#1d4ed8", []⟩, ⟨6, "Drawing", "#0284c7", []⟩ ]⟩ :=
  ⟨by decide,
    signup_then_list_defaults asciiPlatform 3 "salt" demoStore anonymous
      ⟨some "carol", some "Carol@x.org", some "secret1"⟩
      (by unfold RefOk; decide) (by decide)⟩

/-- C6: when `bcrypt.compare` accepts what `bcrypt.hash` produced, after a
signup that answered 200 a signin with the same email and password, under any
session, answers 200 with success true and the same user id, username and
email as the signup returned. -/
theorem signin_after_signup (P : Platform) (newId : ObjectId) (salt : String)
    (st : Store) (sess sess2 : Session) (body : SignupBody)
    (hbc : ∀ s pw, P.bcryptCompare pw (P.bcryptHash s pw) = true)
    (hok : (signup P newId salt st sess body).response.status = 200) :
    ∃ user : UserView,
      (signup P newId salt st sess body).response =
        ⟨200, .user true "Account created successfully" user⟩ ∧
      (signin P (signup P newId salt st sess body).store sess2
          ⟨body.email, body.password.map JsValue.str⟩).response =
        ⟨200, .user true "Login successful" user⟩ := by
  obtain ⟨hte, htp, hnone, _, heq⟩ := signup_inversion P newId salt st sess body hok
  rw [heq]
  refine ⟨_, rfl, ?_⟩
  have hpw : ∃ pw, body.password = some pw ∧ pw ≠ "" := by
    cases hb : body.password with
    | none => simp [hb, truthy] at htp
    | some pw => exact ⟨pw, rfl, by simpa [hb, truthy] using htp⟩
  obtain ⟨pw, hpw, hne⟩ := hpw
  unfold signin
  rw [if_neg (by simp [hte, hpw, JsValue.truthy, hne])]
  have hfind : findUserByEmail P
      ⟨st.users ++ [newUserDoc P newId salt body], st.habits ++ storedDefaults newId⟩
      (body.email.getD "") = some (newUserDoc P newId salt body) := by
    unfold findUserByEmail at hnone ⊢
    simp only [List.find?_append, hnone, Option.none_or]
    simp [newUserDoc]
  simp only [hfind, hpw, Option.map_some']
  rw [if_neg (by simp [newUserDoc, hpw, hbc])]
  rfl

/-- A signup with a mixed-case email, then a signin with what was typed. -/
theorem signin_after_signup_witness :
    ∃ user : UserView,
      (signup asciiPlatform 3 "salt" demoStore anonymous
          ⟨some "abc", some "A@b.org", some "secret1"⟩).response =
        ⟨200, .user true "Account created successfully" user⟩ ∧
      (signin asciiPlatform
          (signup asciiPlatform 3 "salt" demoStore anonymous
            ⟨some "abc", some "A@b.org", some "secret1"⟩).store anonymous
          ⟨some "A@b.org", some (.str "secret1")⟩).response =
        ⟨200, .user true "Login successful" user⟩ :=
  signin_after_signup asciiPlatform 3 "salt" demoStore anonymous anonymous
    ⟨some "abc", some "A@b.org", some "secret1"⟩
    (by intro s pw; simp [asciiPlatform]) (by decide)

/-- C7 (as stated, refuted): a saved habit with a padded name and no color is
stored trimmed and with the default color, so the stored set is not the
submitted list; and a list holding a habit without a name is answered 500 and
leaves the user without any habit. -/
theorem saveHabits_not_exactly_submitted :
    (habitRoute ⟨[], []⟩ ⟨some 1, none, none⟩
        (.save ⟨none, some [⟨none, some 1, some " Read ", none, none⟩]⟩)).response =
      ⟨200, .message true "Habits saved successfully"⟩ ∧
    (findHabits (habitRoute ⟨[], []⟩ ⟨some 1, none, none⟩
        (.save ⟨none, some [⟨none, some 1, some " Read ", none, none⟩]⟩)).store 1).map
        storedFields = [(some 1, some "Read", some "#3b82f6", [])] ∧
    (findHabits (habitRoute ⟨[], []⟩ ⟨some 1, none, none⟩
        (.save ⟨none, some [⟨none, some 1, some " Read ", none, none⟩]⟩)).store 1).map
        storedFields ≠
      [⟨none, some 1, some " Read ", none, none⟩].map submittedFields ∧
    (habitRoute ⟨[], [⟨1, 7, "Swim", "#000000", []⟩]⟩ ⟨some 1, none, none⟩
        (.save ⟨none, some [⟨none, some 1, none, some "#ffffff", none⟩]⟩)) =
      ⟨⟨[], []⟩, ⟨some 1, none, none⟩, ⟨500, .message false "Error saving habits"⟩⟩ :=
  ⟨by decide, by decide, by decide, by decide⟩

/-- C7 (amended): submitting the same list twice under the session of `u`
gives the very outcome of submitting it once. When every submitted habit has
an id and a name that is not empty once trimmed, the save answers 200 and the
habits stored for `u` are the submitted list, in order, with each id as the
Number it denotes, each name trimmed, a missing color replaced by `#3b82f6`
and a missing completions by the empty map; otherwise it answers 500 and `u`
is left without habits. -/
theorem saveHabits_idempotent (st : Store) (sess : Session) (u : ObjectId)
    (w : Option ObjectId) (habits : List HabitInput) (hu : sess.userId = some u) :
    habitRoute (habitRoute st sess (.save ⟨w, some habits⟩)).store
        (habitRoute st sess (.save ⟨w, some habits⟩)).session (.save ⟨w, some habits⟩) =
      habitRoute st sess (.save ⟨w, some habits⟩) ∧
    (habits.all savable = true →
      (habitRoute st sess (.save ⟨w, some habits⟩)).response =
        ⟨200, .message true "Habits saved successfully"⟩ ∧
      findHabits (habitRoute st sess (.save ⟨w, some habits⟩)).store u =
        habits.map (fun h => ⟨u, toNumber (h.id.getD 0), jsTrim (h.name.getD ""),
          h.color.getD "#3b82f6", h.completions.getD []⟩)) ∧
    (habits.all savable = false →
      (habitRoute st sess (.save ⟨w, some habits⟩)).response =
        ⟨500, .message false "Error saving habits"⟩ ∧
      findHabits (habitRoute st sess (.save ⟨w, some habits⟩)).store u = []) := by
  have hr : ∀ s : Store, habitRoute s sess (.save ⟨w, some habits⟩) =
      saveHabits s sess u ⟨w, some habits⟩ := by
    intro s
    simp [habitRoute, isAuthenticated, hu, habitHandler]
  have hown := storedOf_userId u habits
  cases hall : habits.all savable with
  | true =>
    have h1 := saveHabits_eq st sess u w habits
    rw [hall, if_pos rfl] at h1
    rw [hr st, h1]
    refine ⟨?_, fun _ => ⟨rfl, ?_⟩, fun h => Bool.noConfusion h⟩
    · rw [hr, saveHabits_eq, hall, if_pos rfl]
      simp only [deleteMany, List.filter_append, List.filter_filter, Bool.and_self,
        filter_other_of_all _ hown, List.append_nil]
    · simp only [findHabits, List.filter_append, filter_own_of_all _ hown]
      have := findHabits_deleteMany st u
      simp only [findHabits] at this
      rw [this]
      rfl
  | false =>
    have h1 := saveHabits_eq st sess u w habits
    rw [hall, if_neg (by simp)] at h1
    rw [hr st, h1]
    refine ⟨?_, fun h => Bool.noConfusion h, fun _ => ⟨rfl, findHabits_deleteMany st u⟩⟩
    rw [hr, saveHabits_eq, hall, if_neg (by simp), deleteMany_idem]

/-- User 1 saves a one-habit list twice; the habit is stored trimmed and with
the default color. -/
theorem saveHabits_idempotent_witness :
    demoSession.userId = some 1 ∧
    habitRoute (habitRoute demoStore demoSession
        (.save ⟨none, some [⟨none, some 4, some " Run ", none, none⟩]⟩)).store
        (habitRoute demoStore demoSession
          (.save ⟨none, some [⟨none, some 4, some " Run ", none, none⟩]⟩)).session
        (.save ⟨none, some [⟨none, some 4, some " Run ", none, none⟩]⟩) =
      habitRoute demoStore demoSession
        (.save ⟨none, some [⟨none, some 4, some " Run ", none, none⟩]⟩) ∧
    findHabits (habitRoute demoStore demoSession
        (.save ⟨none, some [⟨none, some 4, some " Run ", none, none⟩]⟩)).store 1 =
      [⟨1, 4, "Run", "#3b82f6", []⟩] :=
  ⟨rfl,
    (saveHabits_idempotent demoStore demoSession 1 none
      [⟨none, some 4, some " Run ", none, none⟩] rfl).1,
    ((saveHabits_idempotent demoStore demoSession 1 none
      [⟨none, some 4, some " Run ", none, none⟩] rfl).2.1 (by decide)).2⟩

/-- C8 (as stated, refuted): a saved list with two habits of id 1 is answered
200 and both are stored, so two stored habits of the user share a habitId;
and so do the two habits of a list with the ids 9007199254740992 and
9007199254740993, which are one Number. -/
theorem saveHabits_keeps_duplicate_ids :
    (habitRoute demoStore demoSession
        (.save ⟨none, some [⟨none, some 1, some "Read", none, none⟩,
          ⟨none, some 1, some "Run", none, none⟩]⟩)).response =
      ⟨200, .message true "Habits saved successfully"⟩ ∧
    (findHabits (habitRoute demoStore demoSession
        (.save ⟨none, some [⟨none, some 1, some "Read", none, none⟩,
          ⟨none, some 1, some "Run", none, none⟩]⟩)).store 1).map (fun h => h.habitId) =
      [1, 1] ∧
    ¬ ((findHabits (habitRoute demoStore demoSession
        (.save ⟨none, some [⟨none, some 1, some "Read", none, none⟩,
          ⟨none, some 1, some "Run", none, none⟩]⟩)).store 1).map
        (fun h => h.habitId)).Nodup ∧
    (findHabits (habitRoute demoStore demoSession
        (.save ⟨none, some [⟨none, some 9007199254740992, some "Read", none, none⟩,
          ⟨none, some 9007199254740993, some "Run", none, none⟩]⟩)).store 1).map
        (fun h => h.habitId) = [9007199254740992, 9007199254740992] :=
  ⟨by decide, by decide, by decide, by decide⟩

/-- C8 (amended): after a save that answered 200 under the session of `u`,
the habitIds stored for `u` are the ids of the submitted list as Numbers, one
stored habit per submitted entry and in the same order; so no two stored
habits of `u` share a habitId exactly when no two submitted entries have ids
that are the same Number. -/
theorem saveHabits_ids (st : Store) (sess : Session) (u : ObjectId)
    (w : Option ObjectId) (habits : List HabitInput) (hu : sess.userId = some u)
    (hok : (habitRoute st sess (.save ⟨w, some habits⟩)).response.status = 200) :
    (findHabits (habitRoute st sess (.save ⟨w, some habits⟩)).store u).map
        (fun h => some h.habitId) = habits.map (fun h => h.id.map toNumber) ∧
    (((findHabits (habitRoute st sess (.save ⟨w, some habits⟩)).store u).map
        (fun h => h.habitId)).Nodup ↔
      (habits.map (fun h => h.id.map toNumber)).Nodup) := by
  have hr : habitRoute st sess (.save ⟨w, some habits⟩) =
      saveHabits st sess u ⟨w, some habits⟩ := by
    simp [habitRoute, isAuthenticated, hu, habitHandler]
  rw [hr] at hok ⊢
  rw [saveHabits_eq] at hok ⊢
  cases hall : habits.all savable with
  | false => rw [hall] at hok; simp at hok
  | true =>
    rw [if_pos rfl]
    have hown := storedOf_userId u habits
    have hfind : findHabits ⟨st.users, (deleteMany st u).habits ++ habits.map (storedOf u)⟩ u
        = habits.map (storedOf u) := by
      simp only [findHabits, List.filter_append, filter_own_of_all _ hown]
      have := findHabits_deleteMany st u
      simp only [findHabits] at this
      rw [this]
      rfl
    simp only [hfind]
    have hids : (habits.map (storedOf u)).map (fun h => some h.habitId)
        = habits.map (fun h => h.id.map toNumber) := by
      rw [List.map_map]
      apply List.map_congr_left
      intro h hm
      have hs : savable h = true := (List.all_eq_true.1 hall) h hm
      unfold savable at hs
      cases hi : h.id with
      | none => simp [hi] at hs
      | some i => simp [storedOf, hi]
    refine ⟨hids, ?_⟩
    have hsome : (habits.map (storedOf u)).map (fun h => some h.habitId) =
        ((habits.map (storedOf u)).map (fun h => h.habitId)).map some := by
      simp only [List.map_map]
      rfl
    rw [← hids, hsome]
    exact (List.nodup_map_iff (Option.some_injective _)).symm

/-- A saved list with the ids 4 and 5 leaves no shared habitId. -/
theorem saveHabits_ids_witness :
    (habitRoute demoStore demoSession
        (.save ⟨none, some [⟨none, some 4, some "Run", none, none⟩,
          ⟨none, some 5, some "Swim", none, none⟩]⟩)).response.status = 200 ∧
    ((findHabits (habitRoute demoStore demoSession
        (.save ⟨none, some [⟨none, some 4, some "Run", none, none⟩,
          ⟨none, some 5, some "Swim", none, none⟩]⟩)).store 1).map
        (fun h => h.habitId)).Nodup :=
  ⟨by decide,
    (saveHabits_ids demoStore demoSession 1 none
      [⟨none, some 4, some "Run", none, none⟩, ⟨none, some 5, some "Swim", none, none⟩]
      rfl (by decide)).2.2 (by decide)⟩

/-- C9 (as stated, refuted): user 1 has no habit under the path segment `abc`,
which `parseInt` turns into `NaN`; the update is answered 500 `Error updating
habit`, not 404. Store and session stay as they were. -/
theorem updateHabit_nan_id :
    habitRoute demoStore demoSession (.update none ⟨none, some "Run", none, none⟩) =
      ⟨demoStore, demoSession, ⟨500, .message false "Error updating habit"⟩⟩ ∧
    (habitRoute demoStore demoSession
      (.update none ⟨none, some "Run", none, none⟩)).response.status ≠ 404 :=
  ⟨by decide, by decide⟩

/-- C9 (amended): under the session of `u`, `PUT /api/habits/:id` with any
body leaves store and session as they were and answers 404 `Habit not found`
when `parseInt` reads an integer off `:id` and no stored habit has owner `u`
and that Number as habitId, and 500 `Error updating habit` when `parseInt`
reads none (`NaN`). -/
theorem updateHabit_not_found (st : Store) (sess : Session) (u : ObjectId)
    (id : Option Int) (body : UpdateBody) (hu : sess.userId = some u)
    (hno : ∀ n, id = some n →
      ∀ h ∈ st.habits, ¬ (h.userId = u ∧ h.habitId = toNumber n)) :
    habitRoute st sess (.update id body) =
      ⟨st, sess,
        match id with
        | some _ => ⟨404, .message false "Habit not found"⟩
        | none => ⟨500, .message false "Error updating habit"⟩⟩ := by
  cases id with
  | none => simp [habitRoute, isAuthenticated, hu, habitHandler, updateHabit, fail]
  | some n =>
    have hf : findOneHabit st u (toNumber n) = none := by
      unfold findOneHabit
      rw [List.find?_eq_none]
      intro h hm
      simpa [sameHabit] using hno n rfl h hm
    simp [habitRoute, isAuthenticated, hu, habitHandler, updateHabit, hf, fail]

/-- User 1 has no habit 5; and a path segment that is no number. -/
theorem updateHabit_not_found_witness :
    habitRoute demoStore demoSession (.update (some 5) ⟨none, some "Run", none, none⟩) =
      ⟨demoStore, demoSession, ⟨404, .message false "Habit not found"⟩⟩ ∧
    habitRoute demoStore demoSession (.update none ⟨none, none, none, none⟩) =
      ⟨demoStore, demoSession, ⟨500, .message false "Error updating habit"⟩⟩ :=
  ⟨updateHabit_not_found demoStore demoSession 1 (some 5) ⟨none, some "Run", none, none⟩
      rfl (by decide),
    updateHabit_not_found demoStore demoSession 1 none ⟨none, none, none, none⟩
      rfl (by decide)⟩

/-- C10 (as stated, refuted): a body that supplies the empty string as name
(and as color) is answered 200 and the habit keeps its name and color; a body
that supplies a padded name stores it trimmed; a body that supplies a blank
name is answered 500. -/
theorem updateHabit_supplied_not_stored :
    habitRoute ⟨[], [⟨1, 1, "Read", "#3b82f6", []⟩]⟩ ⟨some 1, none, none⟩
        (.update (some 1) ⟨none, some "", some "", none⟩) =
      ⟨⟨[], [⟨1, 1, "Read", "#3b82f6", []⟩]⟩, ⟨some 1, none, none⟩,
        ⟨200, .habit true ⟨1, 1, "Read", "#3b82f6", []⟩⟩⟩ ∧
    (findOneHabit (habitRoute ⟨[], [⟨1, 1, "Read", "#3b82f6", []⟩]⟩ ⟨some 1, none, none⟩
        (.update (some 1) ⟨none, some "", some "", none⟩)).store 1 1).map
        (fun h => h.name) ≠ some "" ∧
    habitRoute ⟨[], [⟨1, 1, "Read", "#3b82f6", []⟩]⟩ ⟨some 1, none, none⟩
        (.update (some 1) ⟨none, some " Run ", none, none⟩) =
      ⟨⟨[], [⟨1, 1, "Run", "#3b82f6", []⟩]⟩, ⟨some 1, none, none⟩,
        ⟨200, .habit true ⟨1, 1, "Run", "#3b82f6", []⟩⟩⟩ ∧
    habitRoute ⟨[], [⟨1, 1, "Read", "#3b82f6", []⟩]⟩ ⟨some 1, none, none⟩
        (.update (some 1) ⟨none, some " ", none, none⟩) =
      ⟨⟨[], [⟨1, 1, "Read", "#3b82f6", []⟩]⟩, ⟨some 1, none, none⟩,
        ⟨500, .message false "Error updating habit"⟩⟩ :=
  ⟨by decide, by decide, by decide, by decide⟩

/-- C10 (amended): under the session of `u`, let `habit` be the first stored
habit with owner `u` and the Number of `id` as habitId. The updated habit has
the name of the body, trimmed, when the body supplies a non-empty name, the
color of the body when it supplies a non-empty color, the completions of the
body when it supplies them, and the previous value of each field otherwise;
its userId and habitId are unchanged. When its name is not empty the update
answers 200 with it, it takes the place of `habit` in the store, every other
habit and every user is as before, and reading (`u`, `id`) back finds it;
when its name is empty the update answers 500 and changes nothing. -/
theorem updateHabit_fields (st : Store) (sess : Session) (u : ObjectId) (id : Int)
    (body : UpdateBody) (habit : Habit) (hu : sess.userId = some u)
    (hf : findOneHabit st u (toNumber id) = some habit) :
    ∃ new : Habit,
      new.userId = habit.userId ∧ new.habitId = habit.habitId ∧
      new.name = (if truthy body.name then jsTrim (body.name.getD "") else habit.name) ∧
      new.color = (if truthy body.color then body.color.getD "" else habit.color) ∧
      new.completions = body.completions.getD habit.completions ∧
      (new.name ≠ "" →
        (habitRoute st sess (.update (some id) body)).response = ⟨200, .habit true new⟩ ∧
        (habitRoute st sess (.update (some id) body)).session = sess ∧
        (habitRoute st sess (.update (some id) body)).store.users = st.users ∧
        findOneHabit (habitRoute st sess (.update (some id) body)).store u (toNumber id) =
          some new ∧
        ∃ pre post, st.habits = pre ++ habit :: post ∧
          (∀ x ∈ pre, ¬ (x.userId = u ∧ x.habitId = toNumber id)) ∧
          (habitRoute st sess (.update (some id) body)).store.habits = pre ++ new :: post) ∧
      (new.name = "" →
        habitRoute st sess (.update (some id) body) =
          ⟨st, sess, ⟨500, .message false "Error updating habit"⟩⟩) := by
  have hr : habitRoute st sess (.update (some id) body) =
      updateHabit st sess u (some id) body := by
    simp [habitRoute, isAuthenticated, hu, habitHandler]
  rw [hr]
  refine ⟨applyUpdate habit body, rfl, rfl, rfl, rfl, ?_, ?_, ?_⟩
  · cases hb : body.completions <;> simp [applyUpdate, hb]
  · intro hne
    have hv : validHabit (applyUpdate habit body) = true := by
      simpa [validHabit] using hne
    have hout : updateHabit st sess u (some id) body =
        ⟨saveHabit st u (toNumber id) (applyUpdate habit body),
          sess, ⟨200, .habit true (applyUpdate habit body)⟩⟩ := by
      simp only [updateHabit, hf, hv, Bool.not_true, Bool.false_eq_true, if_false]
    rw [hout]
    obtain ⟨pre, post, h1, h2, h3⟩ :=
      replaceFirst_split (sameHabit u (toNumber id)) (applyUpdate habit body)
        st.habits habit hf
    refine ⟨rfl, rfl, rfl, ?_, pre, post, h1, ?_, h3⟩
    · simp only [findOneHabit, saveHabit, h3]
      apply find?_split _ _ _ _ h2
      rw [sameHabit_applyUpdate]
      exact findOneHabit_match hf
    · intro x hx
      simpa [sameHabit] using h2 x hx
  · intro he
    have hv : validHabit (applyUpdate habit body) = false := by
      simp [validHabit, he]
    simp only [updateHabit, hf, hv, Bool.not_false, if_true]
    rfl

/-- A padded name and an empty color: the name is stored trimmed, the color
stays. -/
theorem updateHabit_fields_witness :
    findOneHabit demoStore 1 (toNumber 1) = some ⟨1, 1, "Read", "#3b82f6", []⟩ ∧
    ∃ new : Habit, new.name = "Run" ∧ new.color = "#3b82f6" ∧
      (habitRoute demoStore demoSession
        (.update (some 1) ⟨none, some " Run ", some "", none⟩)).response =
        ⟨200, .habit true new⟩ := by
  obtain ⟨new, _, _, h3, h4, _, h6, _⟩ :=
    updateHabit_fields demoStore demoSession 1 1 ⟨none, some " Run ", some "", none⟩
      ⟨1, 1, "Read", "#3b82f6", []⟩ rfl (by decide)
  have hname : new.name = "Run" := by rw [h3]; decide
  have hcolor : new.color = "#3b82f6" := by rw [h4]; decide
  exact ⟨by decide, new, hname, hcolor, (h6 (by rw [hname]; decide)).1⟩

end HabitTracker
